import Mathlib

/-!
Verification of the hybrid-search result fusion and ranking pipeline of the
pytidb SDK, as described by its specification.  The repository snapshot under
review contains only the documentation, examples and build files of the SDK;
the Python package itself (`pytidb/fusion.py`, `pytidb/search.py`,
`pytidb/rerankers/`) is not part of the snapshot.  Every definition below is
therefore modelled from the specification's own words (§2–§7 of the spec),
cross-checked against the behaviour documented in
`docs/src/guides/hybrid-search.md`, `docs/src/guides/vector-search.md` and the
architecture overview in `CONTRIBUTING.md`.

Scores are modelled as rationals (ℚ): the fusion arithmetic of the spec
(`1/(k+rank)`, weighted sums) is exact rational arithmetic, and ℚ keeps every
statement decidable on concrete inputs.
-/

namespace PyTiDB

/-- Modelled from the spec: `ScoredRow` (§3) — a record produced by one
retrieval channel, carrying an identity `key`, a channel-specific raw
`score` (a distance for the vector channel, a match score for the full-text
channel) and an opaque `payload` referencing the full row data. -/
structure ScoredRow where
  key : Nat
  score : ℚ
  payload : Nat
deriving DecidableEq

/-- Modelled from the spec: `RankedList` (§3) — an ordered sequence of
`ScoredRow` produced by a single channel, best-first, with 1-based rank given
implicitly by position (§4.1). -/
abbrev RankedList := List ScoredRow

/-- The keys of a ranked list, in list order. -/
def keysOf (rows : RankedList) : List Nat :=
  rows.map (fun r => r.key)

/-- First row of the list carrying the given key, if any. -/
def findByKey (rows : RankedList) (k : Nat) : Option ScoredRow :=
  rows.find? (fun r => r.key == k)

/-- Modelled from the spec: the 1-based rank of a key within a channel's
RankedList (§4.2), `none` when the key does not appear in the list. -/
def rankOf (rows : RankedList) (k : Nat) : Option Nat :=
  (rows.findIdx? (fun r => r.key == k)).map (fun i => i + 1)

/-- Modelled from the spec: `FusedRow` (§3) — the fused record: the original
per-channel raw scores are passed through as `distance` (`_distance`) and
`matchScore` (`_match_score`), nullable when the key was absent from that
channel; `score` (`_score`) is the unified fused relevance value; `payload`
is carried through fusion untouched. -/
structure FusedRow where
  key : Nat
  distance : Option ℚ
  matchScore : Option ℚ
  score : ℚ
  payload : Nat
deriving DecidableEq

/-- Modelled from the spec: one channel's RRF contribution (§4.2) —
`1/(k + rank)` when the key appears in the channel at that 1-based rank, and
`0` for a channel not containing the key. -/
def rrfTerm (k : ℚ) (rows : RankedList) (key : Nat) : ℚ :=
  match rankOf rows key with
  | some r => 1 / (k + (r : ℚ))
  | none => 0

/-- Modelled from the spec: the RRF fused score (§4.2) —
`score(key) = Σ_over_channels_containing_key 1/(k + rank_in_channel)`,
here over the two channels (vector, full-text). -/
def rrfScore (k : ℚ) (v f : RankedList) (key : Nat) : ℚ :=
  rrfTerm k v key + rrfTerm k f key

/-- The payload carried to the fused row: the payload stored for this key by
whichever channel contains it (vector channel first). -/
def rowPayload (v f : RankedList) (key : Nat) : Nat :=
  match findByKey v key with
  | some r => r.payload
  | none =>
    match findByKey f key with
    | some r => r.payload
    | none => 0

/-- Build the fused row for one key: raw per-channel scores and payload are
passed through; the fused score is produced by the strategy's score
function. -/
def mkFusedRow (v f : RankedList) (scoreFn : Nat → ℚ) (key : Nat) : FusedRow :=
  { key := key
    distance := (findByKey v key).map (fun r => r.score)
    matchScore := (findByKey f key).map (fun r => r.score)
    score := scoreFn key
    payload := rowPayload v f key }

/-- Modelled from the spec: the distinct keys appearing in any input list
(§4.2). -/
def distinctKeys (v f : RankedList) : List Nat :=
  (keysOf v ++ keysOf f).dedup

/-- Descending-by-fused-score ordering of fusion output
(§3: the fused list is sorted by `_score` descending). -/
def scoreGE (a b : FusedRow) : Prop :=
  b.score ≤ a.score

instance : DecidableRel scoreGE :=
  fun a b => inferInstanceAs (Decidable (b.score ≤ a.score))

instance : IsTotal FusedRow scoreGE :=
  ⟨fun a b => (le_total b.score a.score).imp (fun h => h) (fun h => h)⟩

instance : IsTrans FusedRow scoreGE :=
  ⟨fun _ _ _ h1 h2 => le_trans h2 h1⟩

/-- Common fusion skeleton: one fused row per distinct input key, sorted
descending by the strategy's fused score (stable insertion sort, so input
iteration order is the incidental tie-break, as §9 observes). -/
def fuseWith (v f : RankedList) (scoreFn : Nat → ℚ) : List FusedRow :=
  ((distinctKeys v f).map (mkFusedRow v f scoreFn)).insertionSort scoreGE

/-- Modelled from the spec: Reciprocal Rank Fusion (§4.2) of the vector and
full-text RankedLists with constant `k`. -/
def fuseRRF (k : ℚ) (v f : RankedList) : List FusedRow :=
  fuseWith v f (rrfScore k v f)

/-- Modelled from the spec: the normalization of the vector channel's raw
distance onto a higher-is-better range for weighted fusion (§4.3 leaves the
method a design choice; the reciprocal-of-distance transform named there is
used). -/
def normalizedVectorScore (d : ℚ) : ℚ :=
  1 / (1 + d)

/-- Modelled from the spec: the weighted fused score (§4.3) —
`score(key) = Σ_over_channels weight_channel * normalized_channel_score(key)`,
with a channel not containing the key contributing 0. -/
def weightedScore (wv wf : ℚ) (v f : RankedList) (key : Nat) : ℚ :=
  (match findByKey v key with
   | some r => wv * normalizedVectorScore r.score
   | none => 0) +
  (match findByKey f key with
   | some r => wf * r.score
   | none => 0)

/-- Modelled from the spec: Weighted Score Fusion (§4.3). -/
def fuseWeighted (wv wf : ℚ) (v f : RankedList) : List FusedRow :=
  fuseWith v f (weightedScore wv wf v f)

/-- Modelled from the spec: the recognized fusion strategies (§6:
`fusion_method ∈ {rrf, weighted}`; `CONTRIBUTING.md`: "fusion.py merges
heterogeneous search result sets (RRF and weighted strategies)"). -/
inductive FusionMethod where
  | rrf (k : ℚ)
  | weighted (vectorWeight fulltextWeight : ℚ)
deriving DecidableEq

/-- Modelled from the spec: the recognized search types (§6:
`search_type ∈ {vector, fulltext, hybrid}`). -/
inductive SearchType where
  | vector
  | fulltext
  | hybrid
deriving DecidableEq

/-- Modelled from the spec: the error taxonomy (§7). -/
inductive SearchError where
  | channelQueryError
  | invalidConfiguration
  | invalidArgument
  | rerankerError
deriving DecidableEq

/-- Modelled from the spec: the configuration surface exposed to callers
(§6). -/
structure SearchConfig where
  searchType : SearchType
  fusionMethod : FusionMethod
  limit : Int
  distanceThreshold : Option ℚ
  matchScoreThreshold : Option ℚ
deriving DecidableEq

/-- Modelled from the docs (`vector-search.md`: `search_mode="vector"` by
default; `hybrid-search.md`: RRF with `k = 60` is the default fusion). The
numeric default for `limit` is a modelling choice; no claim depends on it. -/
def defaultSearchConfig : SearchConfig :=
  { searchType := SearchType.vector
    fusionMethod := FusionMethod.rrf 60
    limit := 10
    distanceThreshold := none
    matchScoreThreshold := none }

/-- Modelled from the spec: configuration validation (§7:
`InvalidConfiguration` — fusion constants/weights are invalid, e.g. `k <= 0`,
all-zero weights; fails fast before any I/O is issued). -/
def validateFusion : FusionMethod → Option SearchError
  | FusionMethod.rrf k =>
    if k ≤ 0 then some SearchError.invalidConfiguration else none
  | FusionMethod.weighted wv wf =>
    if wv = 0 ∧ wf = 0 then some SearchError.invalidConfiguration else none

/-- Modelled from the spec: the channel-local pre-fusion distance threshold
(§4.5) — rows of the vector channel whose raw distance exceeds the threshold
are removed before fusion (distance: lower is better). -/
def filterByDistance (t : Option ℚ) (rows : RankedList) : RankedList :=
  match t with
  | none => rows
  | some d => rows.filter (fun r => decide (r.score ≤ d))

/-- Modelled from the spec: the channel-local pre-fusion match-score
threshold (§4.5) — rows of the full-text channel whose raw match score falls
below the threshold are removed before fusion (match score: higher is
better). -/
def filterByMatchScore (t : Option ℚ) (rows : RankedList) : RankedList :=
  match t with
  | none => rows
  | some m => rows.filter (fun r => decide (m ≤ r.score))

/-- Strategy dispatch for fusion. -/
def fuse : FusionMethod → RankedList → RankedList → List FusedRow
  | FusionMethod.rrf k, v, f => fuseRRF k v f
  | FusionMethod.weighted wv wf, v, f => fuseWeighted wv wf v f

/-- Modelled from the spec: `limit(n)` (§4.5) — applied last, truncating the
final ordered list to its first `n` entries; fails with `InvalidArgument`
when `n <= 0`. -/
def applyLimit (n : Int) (rows : List α) : Except SearchError (List α) :=
  if n ≤ 0 then Except.error SearchError.invalidArgument
  else Except.ok (rows.take n.toNat)

/-- Modelled from the spec: the reranker's response (§4.4) — an ordered
sequence of `(key, new_score)` pairs. -/
abbrev RerankResponse := List (Nat × ℚ)

/-- Modelled from the spec: the external reranker collaborator (§4.4), a
call that may fail (the failure itself is opaque to the pipeline). -/
abbrev RerankerCall := List FusedRow → Except Unit RerankResponse

/-- Modelled from the spec: applying a successful reranker response (§4.4) —
candidates missing from the response are dropped (not an error), each
surviving candidate's `_score` is replaced by the reranker's score, and the
rows are re-sorted descending by the new score; the stable sort preserves the
reranker's returned order as the tie-break. -/
def applyRerank (candidates : List FusedRow) (response : RerankResponse) : List FusedRow :=
  (response.filterMap (fun p =>
    (candidates.find? (fun r => r.key == p.1)).map (fun r => { r with score := p.2 })))
    |>.insertionSort scoreGE

/-- Observable I/O issuance of one pipeline run, used to state fail-fast and
single-channel properties. -/
inductive Event where
  | vectorQuery
  | fulltextQuery
  | rerankCall
deriving DecidableEq

/-- Modelled from the spec: the hybrid SearchPipeline orchestration (§2, §4.5):
validate configuration (fail fast, before any I/O) → issue both channel
queries → join (any channel failure aborts, no partial result) → apply the
channel-local thresholds → fuse → optionally rerank (a reranker failure
aborts as `RerankerError`) → apply `limit` last.  The channel results are the
already-fetched outcomes of the two external queries; the event list records
which I/O the pipeline issued. -/
def runHybrid (cfg : SearchConfig) (vectorChannel fulltextChannel : Except SearchError RankedList)
    (reranker : Option RerankerCall) : Except SearchError (List FusedRow) × List Event :=
  match validateFusion cfg.fusionMethod with
  | some e => (Except.error e, [])
  | none =>
    match vectorChannel, fulltextChannel with
    | Except.ok vrows, Except.ok frows =>
      let v := filterByDistance cfg.distanceThreshold vrows
      let f := filterByMatchScore cfg.matchScoreThreshold frows
      let fused := fuse cfg.fusionMethod v f
      match reranker with
      | none => (applyLimit cfg.limit fused, [Event.vectorQuery, Event.fulltextQuery])
      | some rk =>
        match rk fused with
        | Except.error _ =>
          (Except.error SearchError.rerankerError,
            [Event.vectorQuery, Event.fulltextQuery, Event.rerankCall])
        | Except.ok resp =>
          (applyLimit cfg.limit (applyRerank fused resp),
            [Event.vectorQuery, Event.fulltextQuery, Event.rerankCall])
    | _, _ =>
      (Except.error SearchError.channelQueryError, [Event.vectorQuery, Event.fulltextQuery])

/-- Ascending-by-distance ordering: the vector channel's native best-first
order (§3, glossary: distance, lower = more similar). -/
def distanceAsc (a b : ScoredRow) : Prop :=
  a.score ≤ b.score

instance : DecidableRel distanceAsc :=
  fun a b => inferInstanceAs (Decidable (a.score ≤ b.score))

instance : IsTotal ScoredRow distanceAsc :=
  ⟨fun a b => (le_total a.score b.score).imp (fun h => h) (fun h => h)⟩

instance : IsTrans ScoredRow distanceAsc :=
  ⟨fun _ _ _ h1 h2 => le_trans h1 h2⟩

/-- Descending-by-match-score ordering: the full-text channel's native
best-first order (§3). -/
def matchDesc (a b : ScoredRow) : Prop :=
  b.score ≤ a.score

instance : DecidableRel matchDesc :=
  fun a b => inferInstanceAs (Decidable (b.score ≤ a.score))

instance : IsTotal ScoredRow matchDesc :=
  ⟨fun a b => (le_total b.score a.score).imp (fun h => h) (fun h => h)⟩

instance : IsTrans ScoredRow matchDesc :=
  ⟨fun _ _ _ h1 h2 => le_trans h2 h1⟩

/-- Modelled from the docs (`vector-search.md`): plain vector search — only
the vector channel is queried, its rows are ordered ascending by distance
(the SQL equivalent shown there is `ORDER BY vec_cosine_distance(...) LIMIT n`),
the distance threshold applies, and the limit truncates; no fusion occurs. -/
def runVectorSearch (cfg : SearchConfig) (vectorChannel : Except SearchError RankedList) :
    Except SearchError RankedList × List Event :=
  match vectorChannel with
  | Except.error _ => (Except.error SearchError.channelQueryError, [Event.vectorQuery])
  | Except.ok rows =>
    let v := filterByDistance cfg.distanceThreshold rows
    (applyLimit cfg.limit (v.insertionSort distanceAsc), [Event.vectorQuery])

/-- Modelled from the docs (`fulltext-search.md`): plain full-text search —
only the full-text channel is queried, rows ordered descending by match
score. -/
def runFulltextSearch (cfg : SearchConfig) (fulltextChannel : Except SearchError RankedList) :
    Except SearchError RankedList × List Event :=
  match fulltextChannel with
  | Except.error _ => (Except.error SearchError.channelQueryError, [Event.fulltextQuery])
  | Except.ok rows =>
    let f := filterByMatchScore cfg.matchScoreThreshold rows
    (applyLimit cfg.limit (f.insertionSort matchDesc), [Event.fulltextQuery])

/-- The three shapes of search output: single-channel results expose the
channel's raw rows, hybrid results expose fused rows. -/
inductive SearchOutput where
  | vectorRows (rows : RankedList)
  | fulltextRows (rows : RankedList)
  | fusedRows (rows : List FusedRow)
deriving DecidableEq

/-- Modelled from the spec and docs: `table.search()` dispatch on
`search_type` (§6); `search_mode="vector"` is the default
(`vector-search.md`). -/
def dispatchSearch (cfg : SearchConfig) (vectorChannel fulltextChannel : Except SearchError RankedList)
    (reranker : Option RerankerCall) : Except SearchError SearchOutput × List Event :=
  match cfg.searchType with
  | SearchType.vector =>
    match runVectorSearch cfg vectorChannel with
    | (Except.ok rows, evs) => (Except.ok (SearchOutput.vectorRows rows), evs)
    | (Except.error e, evs) => (Except.error e, evs)
  | SearchType.fulltext =>
    match runFulltextSearch cfg fulltextChannel with
    | (Except.ok rows, evs) => (Except.ok (SearchOutput.fulltextRows rows), evs)
    | (Except.error e, evs) => (Except.error e, evs)
  | SearchType.hybrid =>
    match runHybrid cfg vectorChannel fulltextChannel reranker with
    | (Except.ok rows, evs) => (Except.ok (SearchOutput.fusedRows rows), evs)
    | (Except.error e, evs) => (Except.error e, evs)

/-- The concrete scenario of spec §8: the vector channel returns keys
`[A, B, C]` (ranks 1, 2, 3) and the full-text channel returns keys `[C, A]`
(ranks 1, 2).  Keys are encoded A = 1, B = 2, C = 3; the raw channel scores
and payloads are arbitrary concrete values consistent with each channel's
native order. -/
def exampleVector : RankedList :=
  [⟨1, 1/10, 101⟩, ⟨2, 1/5, 102⟩, ⟨3, 3/10, 103⟩]

/-- The full-text channel of the §8 scenario: keys `[C, A]` at ranks 1, 2. -/
def exampleFulltext : RankedList :=
  [⟨3, 5, 103⟩, ⟨1, 4, 101⟩]

/-- A concrete valid hybrid configuration used by witnesses. -/
def hybridConfig : SearchConfig :=
  { searchType := SearchType.hybrid
    fusionMethod := FusionMethod.rrf 60
    limit := 10
    distanceThreshold := none
    matchScoreThreshold := none }

/-- A concrete hybrid configuration selecting the weighted fusion strategy
with non-degenerate weights. -/
def weightedConfig : SearchConfig :=
  { searchType := SearchType.hybrid
    fusionMethod := FusionMethod.weighted 1 1
    limit := 10
    distanceThreshold := none
    matchScoreThreshold := none }

/-- A concrete hybrid configuration with both channel-local thresholds set:
the distance threshold `1/4` keeps keys 1, 2 of `exampleVector` and drops
key 3; the match-score threshold `9/2` keeps key 3 of `exampleFulltext` and
drops key 1. -/
def thresholdConfig : SearchConfig :=
  { searchType := SearchType.hybrid
    fusionMethod := FusionMethod.rrf 60
    limit := 10
    distanceThreshold := some (1/4)
    matchScoreThreshold := some (9/2) }

/-- The reranker response of the §8 reranking scenario: scores are returned
only for keys A = 1 and C = 3 out of the fused candidates `[A, C, B]`, and
the two returned scores tie, exercising the returned-order tie-break. -/
def exampleRerankResponse : RerankResponse :=
  [(1, 1/2), (3, 1/2)]

@[simp]
theorem mkFusedRow_key (v f : RankedList) (s : Nat → ℚ) (k : Nat) :
    (mkFusedRow v f s k).key = k :=
  rfl

theorem mem_keysOf {rows : RankedList} {k : Nat} :
    k ∈ keysOf rows ↔ ∃ r ∈ rows, r.key = k := by
  simp [keysOf]

theorem findByKey_eq_none {rows : RankedList} {k : Nat} :
    findByKey rows k = none ↔ k ∉ keysOf rows := by
  simp [findByKey, List.find?_eq_none, keysOf]

theorem findByKey_some {rows : RankedList} {k : Nat} {r : ScoredRow}
    (h : findByKey rows k = some r) : r ∈ rows ∧ r.key = k := by
  refine ⟨List.mem_of_find?_eq_some h, ?_⟩
  have h2 := List.find?_some h
  simpa using h2

theorem findByKey_of_mem {rows : RankedList} (hnd : (keysOf rows).Nodup)
    {r : ScoredRow} (hr : r ∈ rows) : findByKey rows r.key = some r := by
  induction rows with
  | nil => cases hr
  | cons a t ih =>
    have hnd' : a.key ∉ keysOf t ∧ (keysOf t).Nodup := by
      simpa [keysOf] using hnd
    rcases List.mem_cons.mp hr with h | h
    · subst h
      simp [findByKey]
    · have hne : a.key ≠ r.key := fun hEq =>
        hnd'.1 (hEq ▸ mem_keysOf.mpr ⟨r, h, rfl⟩)
      have ht := ih hnd'.2 h
      simp only [findByKey] at ht ⊢
      rw [List.find?_cons_of_neg]
      · exact ht
      · simp [hne]

theorem exists_findByKey_of_mem_keys {rows : RankedList} {k : Nat}
    (h : k ∈ keysOf rows) : ∃ r, findByKey rows k = some r ∧ r ∈ rows ∧ r.key = k := by
  cases hfind : findByKey rows k with
  | none => exact absurd h (findByKey_eq_none.mp hfind)
  | some r => exact ⟨r, rfl, findByKey_some hfind⟩

theorem fuseWith_perm (v f : RankedList) (s : Nat → ℚ) :
    List.Perm (fuseWith v f s) ((distinctKeys v f).map (mkFusedRow v f s)) :=
  List.perm_insertionSort _ _

theorem mem_fuseWith {v f : RankedList} {s : Nat → ℚ} {row : FusedRow} :
    row ∈ fuseWith v f s ↔ ∃ k ∈ distinctKeys v f, mkFusedRow v f s k = row := by
  rw [(fuseWith_perm v f s).mem_iff]
  exact List.mem_map

theorem mem_distinctKeys {v f : RankedList} {k : Nat} :
    k ∈ distinctKeys v f ↔ k ∈ keysOf v ∨ k ∈ keysOf f := by
  simp [distinctKeys]

theorem nodup_distinctKeys (v f : RankedList) : (distinctKeys v f).Nodup :=
  List.nodup_dedup _

theorem keys_fuseWith_perm (v f : RankedList) (s : Nat → ℚ) :
    List.Perm ((fuseWith v f s).map FusedRow.key) (distinctKeys v f) := by
  have h := (fuseWith_perm v f s).map FusedRow.key
  rw [List.map_map] at h
  have hmap : (distinctKeys v f).map (FusedRow.key ∘ mkFusedRow v f s) = distinctKeys v f := by
    have : FusedRow.key ∘ mkFusedRow v f s = fun k => k := by
      funext k
      rfl
    rw [this]
    exact List.map_id _
  rwa [hmap] at h

theorem mem_keys_fuseWith {v f : RankedList} {s : Nat → ℚ} {k : Nat} :
    k ∈ (fuseWith v f s).map FusedRow.key ↔ k ∈ keysOf v ∨ k ∈ keysOf f := by
  rw [(keys_fuseWith_perm v f s).mem_iff]
  exact mem_distinctKeys

theorem nodup_keys_fuseWith (v f : RankedList) (s : Nat → ℚ) :
    ((fuseWith v f s).map FusedRow.key).Nodup :=
  ((keys_fuseWith_perm v f s).nodup_iff).mpr (nodup_distinctKeys v f)

theorem score_of_mem_fuseWith {v f : RankedList} {s : Nat → ℚ} {row : FusedRow}
    (h : row ∈ fuseWith v f s) : row.score = s row.key := by
  rcases mem_fuseWith.mp h with ⟨k, _, hk⟩
  subst hk
  rfl

theorem sorted_fuseWith (v f : RankedList) (s : Nat → ℚ) :
    (fuseWith v f s).Pairwise scoreGE :=
  List.sorted_insertionSort scoreGE _

theorem mem_keys_fuse {m : FusionMethod} {v f : RankedList} {k : Nat} :
    k ∈ (fuse m v f).map FusedRow.key ↔ k ∈ keysOf v ∨ k ∈ keysOf f := by
  cases m with
  | rrf k0 => exact mem_keys_fuseWith
  | weighted wv wf => exact mem_keys_fuseWith

/-- C1: for every pair of input RankedLists and every constant `k > 0`, RRF
fusion outputs exactly the distinct keys appearing in either input (each
exactly once), each with `_score` equal to the sum over the channels
containing that key of `1/(k + rank)` (`rank` the key's 1-based position in
that channel, a channel not containing the key contributing 0), ordered
descending by this score; and in the §8 scenario (vector `[A, B, C]`,
full-text `[C, A]`, `k = 60`, keys A = 1, B = 2, C = 3) the scores are
`score(A) = 1/61 + 1/62`, `score(C) = 1/63 + 1/61`, `score(B) = 1/62` and the
fused order is `[A, C, B]`. -/
theorem rrf_fusion_spec (k : ℚ) (v f : RankedList) (hk : 0 < k) :
    (∀ key0, key0 ∈ (fuseRRF k v f).map FusedRow.key ↔
      key0 ∈ keysOf v ∨ key0 ∈ keysOf f) ∧
    ((fuseRRF k v f).map FusedRow.key).Nodup ∧
    (∀ row ∈ fuseRRF k v f, row.score = rrfTerm k v row.key + rrfTerm k f row.key) ∧
    (fuseRRF k v f).Pairwise (fun a b => b.score ≤ a.score) ∧
    (fuseRRF 60 exampleVector exampleFulltext).map (fun r => (r.key, r.score)) =
      [(1, 1/61 + 1/62), (3, 1/63 + 1/61), (2, 1/62)] := by
  refine ⟨fun key0 => mem_keys_fuseWith, nodup_keys_fuseWith v f _, ?_, ?_, ?_⟩
  · intro row hrow
    exact score_of_mem_fuseWith hrow
  · exact sorted_fuseWith v f _
  · norm_num [fuseRRF, fuseWith, distinctKeys, keysOf, exampleVector, exampleFulltext,
      List.dedup, List.insertionSort, List.orderedInsert, scoreGE, mkFusedRow, rrfScore,
      rrfTerm, rankOf, findByKey, rowPayload, List.findIdx?, List.find?, List.pwFilter]

/-- Witness for C1: the theorem applied at `k = 60` and the §8 example
channels. -/
theorem rrf_fusion_spec_witness :
    (∀ key0, key0 ∈ (fuseRRF 60 exampleVector exampleFulltext).map FusedRow.key ↔
      key0 ∈ keysOf exampleVector ∨ key0 ∈ keysOf exampleFulltext) ∧
    ((fuseRRF 60 exampleVector exampleFulltext).map FusedRow.key).Nodup ∧
    (∀ row ∈ fuseRRF 60 exampleVector exampleFulltext,
      row.score = rrfTerm 60 exampleVector row.key + rrfTerm 60 exampleFulltext row.key) ∧
    (fuseRRF 60 exampleVector exampleFulltext).Pairwise (fun a b => b.score ≤ a.score) ∧
    (fuseRRF 60 exampleVector exampleFulltext).map (fun r => (r.key, r.score)) =
      [(1, 1/61 + 1/62), (3, 1/63 + 1/61), (2, 1/62)] :=
  rrf_fusion_spec 60 exampleVector exampleFulltext (by norm_num)

/-- C3: `limit(n)` is applied last, after fusion and reranking: for `n > 0`
it returns the first `min n m` rows of the final ordered list in unchanged
order (exactly `n` rows when `m ≥ n`, all `m` rows when `n ≥ m`); for
`n ≤ 0` it fails with `InvalidArgument`; and the hybrid pipeline's output is
exactly `applyLimit` of the fused (and, when a reranker responded, reranked)
list. -/
theorem limit_applied_last (n : Int) (rows : List FusedRow) (hn : 0 < n) :
    applyLimit n rows = Except.ok (rows.take n.toNat) ∧
    (rows.take n.toNat).length = min n.toNat rows.length ∧
    (n.toNat ≤ rows.length → (rows.take n.toNat).length = n.toNat) ∧
    (rows.length ≤ n.toNat → rows.take n.toNat = rows) ∧
    (∀ m : Int, m ≤ 0 → applyLimit m rows = Except.error SearchError.invalidArgument) ∧
    (∀ (cfg : SearchConfig) (vrows frows : RankedList),
      validateFusion cfg.fusionMethod = none →
      (runHybrid cfg (Except.ok vrows) (Except.ok frows) none).1 =
        applyLimit cfg.limit (fuse cfg.fusionMethod
          (filterByDistance cfg.distanceThreshold vrows)
          (filterByMatchScore cfg.matchScoreThreshold frows))) ∧
    (∀ (cfg : SearchConfig) (vrows frows : RankedList) (resp : RerankResponse),
      validateFusion cfg.fusionMethod = none →
      (runHybrid cfg (Except.ok vrows) (Except.ok frows)
          (some (fun _ => Except.ok resp))).1 =
        applyLimit cfg.limit (applyRerank (fuse cfg.fusionMethod
          (filterByDistance cfg.distanceThreshold vrows)
          (filterByMatchScore cfg.matchScoreThreshold frows)) resp)) := by
  refine ⟨?_, List.length_take .., ?_, ?_, ?_, ?_, ?_⟩
  · rw [applyLimit, if_neg (by omega)]
  · intro h
    rw [List.length_take]
    omega
  · intro h
    exact List.take_of_length_le h
  · intro m hm
    rw [applyLimit, if_pos hm]
  · intro cfg vrows frows hval
    simp [runHybrid, hval]
  · intro cfg vrows frows resp hval
    simp [runHybrid, hval]

/-- Witness for C3: `n = 2` on a three-row fused list. -/
theorem limit_applied_last_witness :
    applyLimit 2 (fuseRRF 60 exampleVector exampleFulltext) =
      Except.ok ((fuseRRF 60 exampleVector exampleFulltext).take (Int.toNat 2)) ∧
    ((fuseRRF 60 exampleVector exampleFulltext).take (Int.toNat 2)).length =
      min (Int.toNat 2) (fuseRRF 60 exampleVector exampleFulltext).length ∧
    ((Int.toNat 2) ≤ (fuseRRF 60 exampleVector exampleFulltext).length →
      ((fuseRRF 60 exampleVector exampleFulltext).take (Int.toNat 2)).length = Int.toNat 2) ∧
    ((fuseRRF 60 exampleVector exampleFulltext).length ≤ (Int.toNat 2) →
      (fuseRRF 60 exampleVector exampleFulltext).take (Int.toNat 2) =
        fuseRRF 60 exampleVector exampleFulltext) ∧
    (∀ m : Int, m ≤ 0 → applyLimit m (fuseRRF 60 exampleVector exampleFulltext) =
      Except.error SearchError.invalidArgument) ∧
    (∀ (cfg : SearchConfig) (vrows frows : RankedList),
      validateFusion cfg.fusionMethod = none →
      (runHybrid cfg (Except.ok vrows) (Except.ok frows) none).1 =
        applyLimit cfg.limit (fuse cfg.fusionMethod
          (filterByDistance cfg.distanceThreshold vrows)
          (filterByMatchScore cfg.matchScoreThreshold frows))) ∧
    (∀ (cfg : SearchConfig) (vrows frows : RankedList) (resp : RerankResponse),
      validateFusion cfg.fusionMethod = none →
      (runHybrid cfg (Except.ok vrows) (Except.ok frows)
          (some (fun _ => Except.ok resp))).1 =
        applyLimit cfg.limit (applyRerank (fuse cfg.fusionMethod
          (filterByDistance cfg.distanceThreshold vrows)
          (filterByMatchScore cfg.matchScoreThreshold frows)) resp)) :=
  limit_applied_last 2 (fuseRRF 60 exampleVector exampleFulltext) (by norm_num)

/-- C5: for every search configured with a reranker, if the reranker call
fails then the pipeline fails with the distinguishable `RerankerError` and
returns no result — it never silently falls back to the unreranked
fusion-ordered output. -/
theorem reranker_failure_surfaced (cfg : SearchConfig) (vrows frows : RankedList)
    (rk : RerankerCall)
    (hval : validateFusion cfg.fusionMethod = none)
    (hfail : rk (fuse cfg.fusionMethod
      (filterByDistance cfg.distanceThreshold vrows)
      (filterByMatchScore cfg.matchScoreThreshold frows)) = Except.error ()) :
    (runHybrid cfg (Except.ok vrows) (Except.ok frows) (some rk)).1 =
      Except.error SearchError.rerankerError ∧
    (∀ rows, (runHybrid cfg (Except.ok vrows) (Except.ok frows) (some rk)).1 ≠
      Except.ok rows) := by
  have h1 : (runHybrid cfg (Except.ok vrows) (Except.ok frows) (some rk)).1 =
      Except.error SearchError.rerankerError := by
    simp [runHybrid, hval, hfail]
  exact ⟨h1, fun rows hok => by rw [h1] at hok; cases hok⟩

/-- Witness for C5: a reranker call that always fails, on the §8 channels. -/
theorem reranker_failure_surfaced_witness :
    (runHybrid hybridConfig (Except.ok exampleVector) (Except.ok exampleFulltext)
      (some (fun _ => Except.error ()))).1 = Except.error SearchError.rerankerError ∧
    (∀ rows, (runHybrid hybridConfig (Except.ok exampleVector) (Except.ok exampleFulltext)
      (some (fun _ => Except.error ()))).1 ≠ Except.ok rows) :=
  reranker_failure_surfaced hybridConfig exampleVector exampleFulltext
    (fun _ => Except.error ()) (by norm_num [hybridConfig, validateFusion]) rfl

/-- C6: for every RRF fusion configuration with `k ≤ 0` (including `k = 0`)
the search fails with `InvalidConfiguration`, and it fails fast: the error is
produced with an empty I/O event list, i.e. before any channel query is
issued (both for the hybrid pipeline and through the search dispatch). -/
theorem invalid_rrf_constant_fails_fast (cfg : SearchConfig)
    (vq fq : Except SearchError RankedList) (rk : Option RerankerCall) (k : ℚ)
    (hm : cfg.fusionMethod = FusionMethod.rrf k) (hk : k ≤ 0) :
    runHybrid cfg vq fq rk =
      (Except.error SearchError.invalidConfiguration, ([] : List Event)) ∧
    (cfg.searchType = SearchType.hybrid →
      dispatchSearch cfg vq fq rk =
        (Except.error SearchError.invalidConfiguration, ([] : List Event))) := by
  have hval : validateFusion cfg.fusionMethod = some SearchError.invalidConfiguration := by
    rw [hm]
    simp [validateFusion, hk]
  constructor
  · simp [runHybrid, hval]
  · intro hst
    simp [dispatchSearch, hst, runHybrid, hval]

/-- Witness for C6: `k = 0` on the default-shaped hybrid configuration. -/
theorem invalid_rrf_constant_fails_fast_witness :
    runHybrid { hybridConfig with fusionMethod := FusionMethod.rrf 0 }
      (Except.ok exampleVector) (Except.ok exampleFulltext) none =
      (Except.error SearchError.invalidConfiguration, ([] : List Event)) ∧
    (SearchConfig.searchType { hybridConfig with fusionMethod := FusionMethod.rrf 0 } =
        SearchType.hybrid →
      dispatchSearch { hybridConfig with fusionMethod := FusionMethod.rrf 0 }
        (Except.ok exampleVector) (Except.ok exampleFulltext) none =
        (Except.error SearchError.invalidConfiguration, ([] : List Event))) :=
  invalid_rrf_constant_fails_fast _ _ _ none 0 rfl (by norm_num)

/-- C7: the weighted fusion strategy is a recognized configuration — a
weighted configuration with a nonzero weight validates and a concrete
weighted hybrid search completes with `ok` output — and every weighted
configuration in which all channel weights are zero fails with
`InvalidConfiguration` instead of returning a degenerate ordering. -/
theorem weighted_fusion_recognized (cfg : SearchConfig)
    (vq fq : Except SearchError RankedList) (rk : Option RerankerCall)
    (wv wf : ℚ) (hm : cfg.fusionMethod = FusionMethod.weighted wv wf) :
    (wv = 0 → wf = 0 →
      runHybrid cfg vq fq rk =
        (Except.error SearchError.invalidConfiguration, ([] : List Event))) ∧
    (¬(wv = 0 ∧ wf = 0) → validateFusion cfg.fusionMethod = none) ∧
    (∃ out, (runHybrid weightedConfig (Except.ok exampleVector)
      (Except.ok exampleFulltext) none).1 = Except.ok out) := by
  refine ⟨?_, ?_, ?_⟩
  · intro h0v h0f
    subst h0v
    subst h0f
    have hval : validateFusion cfg.fusionMethod = some SearchError.invalidConfiguration := by
      rw [hm]
      simp [validateFusion]
    simp [runHybrid, hval]
  · intro hno
    rw [hm]
    simp [validateFusion, hno]
  · have hval : validateFusion (FusionMethod.weighted 1 1) = none := by
      norm_num [validateFusion]
    refine ⟨(fuse weightedConfig.fusionMethod
      (filterByDistance weightedConfig.distanceThreshold exampleVector)
      (filterByMatchScore weightedConfig.matchScoreThreshold exampleFulltext)).take
        (Int.toNat weightedConfig.limit), ?_⟩
    simp [runHybrid, hval, applyLimit, weightedConfig]

/-- Witness for C7: the weighted strategy with both weights zero, against the
§8 channels. -/
theorem weighted_fusion_recognized_witness :
    ((0 : ℚ) = 0 → (0 : ℚ) = 0 →
      runHybrid { hybridConfig with fusionMethod := FusionMethod.weighted 0 0 }
        (Except.ok exampleVector) (Except.ok exampleFulltext) none =
        (Except.error SearchError.invalidConfiguration, ([] : List Event))) ∧
    (¬((0 : ℚ) = 0 ∧ (0 : ℚ) = 0) →
      validateFusion (SearchConfig.fusionMethod
        { hybridConfig with fusionMethod := FusionMethod.weighted 0 0 }) = none) ∧
    (∃ out, (runHybrid weightedConfig (Except.ok exampleVector)
      (Except.ok exampleFulltext) none).1 = Except.ok out) :=
  weighted_fusion_recognized _ _ _ none 0 0 rfl

theorem fusedFind_eq_none {l : List FusedRow} {k : Nat} :
    l.find? (fun r => r.key == k) = none ↔ k ∉ l.map FusedRow.key := by
  rw [List.find?_eq_none]
  simp

theorem fusedFind_some {l : List FusedRow} {k : Nat} {r : FusedRow}
    (h : l.find? (fun r => r.key == k) = some r) : r ∈ l ∧ r.key = k := by
  refine ⟨List.mem_of_find?_eq_some h, ?_⟩
  have h2 := List.find?_some h
  simpa using h2

/-- C9: fusion changes only ranking fields — for every input row of either
channel (under the spec's unique-keys-per-channel invariant) the payload and
the raw channel scores are carried through fusion unchanged: every fused
row's `distance` equals the original vector-channel raw score of its key and
its `matchScore` the original full-text raw score (`none` for a channel the
key did not appear in), and its payload is exactly the payload of a source
row bearing the same key. -/
theorem fusion_preserves_payload_and_raw_scores (k : ℚ) (v f : RankedList)
    (hv : (keysOf v).Nodup) (hf : (keysOf f).Nodup) :
    ∀ row ∈ fuseRRF k v f,
      (∀ s ∈ v, s.key = row.key → row.distance = some s.score) ∧
      (row.key ∉ keysOf v → row.distance = none) ∧
      (∀ s ∈ f, s.key = row.key → row.matchScore = some s.score) ∧
      (row.key ∉ keysOf f → row.matchScore = none) ∧
      (∃ s, (s ∈ v ∨ s ∈ f) ∧ s.key = row.key ∧ s.payload = row.payload) := by
  intro row hrow
  rcases mem_fuseWith.mp hrow with ⟨k0, hk0, hmk⟩
  subst hmk
  refine ⟨?_, ?_, ?_, ?_, ?_⟩
  · intro s hs hkey
    have hkey0 : s.key = k0 := by simpa [mkFusedRow] using hkey
    have hfind : findByKey v k0 = some s := hkey0 ▸ findByKey_of_mem hv hs
    simp [mkFusedRow, hfind]
  · intro hnot
    have hfind : findByKey v k0 = none :=
      findByKey_eq_none.mpr (by simpa [mkFusedRow] using hnot)
    simp [mkFusedRow, hfind]
  · intro s hs hkey
    have hkey0 : s.key = k0 := by simpa [mkFusedRow] using hkey
    have hfind : findByKey f k0 = some s := hkey0 ▸ findByKey_of_mem hf hs
    simp [mkFusedRow, hfind]
  · intro hnot
    have hfind : findByKey f k0 = none :=
      findByKey_eq_none.mpr (by simpa [mkFusedRow] using hnot)
    simp [mkFusedRow, hfind]
  · cases hfv : findByKey v k0 with
    | some r =>
      have hr := findByKey_some hfv
      exact ⟨r, Or.inl hr.1, by simp [mkFusedRow, hr.2],
        by simp [mkFusedRow, rowPayload, hfv]⟩
    | none =>
      have hkf : k0 ∈ keysOf f := by
        rcases mem_distinctKeys.mp hk0 with hkv | hkf
        · exact absurd hkv (findByKey_eq_none.mp hfv)
        · exact hkf
      rcases exists_findByKey_of_mem_keys hkf with ⟨r, hfind, hrmem, hrkey⟩
      exact ⟨r, Or.inr hrmem, by simp [mkFusedRow, hrkey],
        by simp [mkFusedRow, rowPayload, hfv, hfind]⟩

/-- Witness for C9: the theorem applied at `k = 60`, the §8 channels (whose
per-channel keys are unique) and the concrete fused row of key A = 1. -/
theorem fusion_preserves_payload_and_raw_scores_witness :
    (∀ s ∈ exampleVector, s.key = (mkFusedRow exampleVector exampleFulltext
        (rrfScore 60 exampleVector exampleFulltext) 1).key →
      (mkFusedRow exampleVector exampleFulltext
        (rrfScore 60 exampleVector exampleFulltext) 1).distance = some s.score) ∧
    ((mkFusedRow exampleVector exampleFulltext
        (rrfScore 60 exampleVector exampleFulltext) 1).key ∉ keysOf exampleVector →
      (mkFusedRow exampleVector exampleFulltext
        (rrfScore 60 exampleVector exampleFulltext) 1).distance = none) ∧
    (∀ s ∈ exampleFulltext, s.key = (mkFusedRow exampleVector exampleFulltext
        (rrfScore 60 exampleVector exampleFulltext) 1).key →
      (mkFusedRow exampleVector exampleFulltext
        (rrfScore 60 exampleVector exampleFulltext) 1).matchScore = some s.score) ∧
    ((mkFusedRow exampleVector exampleFulltext
        (rrfScore 60 exampleVector exampleFulltext) 1).key ∉ keysOf exampleFulltext →
      (mkFusedRow exampleVector exampleFulltext
        (rrfScore 60 exampleVector exampleFulltext) 1).matchScore = none) ∧
    (∃ s, (s ∈ exampleVector ∨ s ∈ exampleFulltext) ∧
      s.key = (mkFusedRow exampleVector exampleFulltext
        (rrfScore 60 exampleVector exampleFulltext) 1).key ∧
      s.payload = (mkFusedRow exampleVector exampleFulltext
        (rrfScore 60 exampleVector exampleFulltext) 1).payload) :=
  fusion_preserves_payload_and_raw_scores 60 exampleVector exampleFulltext
    (by decide) (by decide)
    (mkFusedRow exampleVector exampleFulltext (rrfScore 60 exampleVector exampleFulltext) 1)
    (mem_fuseWith.mpr ⟨1, by decide, rfl⟩)

/-- C4: the pipeline tolerates a reranker response covering only a strict
subset of the fused candidates — the run succeeds (it is not an error): the
output's keys are exactly the response's keys that occur among the
candidates (candidates missing from the response are dropped), the output is
ordered descending by the reranker's returned scores, and ties are resolved
by the reranker's returned order: for every pair of tied response entries
whose keys survive, the corresponding rows appear in the output in the
response's order.  Concretely, in the §8 scenario (fused candidates
`[A, C, B]`, response with tied scores for `[A, C]` only) the final output
is `[A, C]` with `B` dropped, and the reversed tied response `[C, A]` yields
`[C, A]` — the returned order, not the key or candidate order. -/
theorem rerank_subset_dropped (candidates : List FusedRow) (response : RerankResponse) :
    (∀ k0, k0 ∈ (applyRerank candidates response).map FusedRow.key ↔
      (k0 ∈ response.map Prod.fst ∧ k0 ∈ candidates.map FusedRow.key)) ∧
    (applyRerank candidates response).Pairwise (fun a b => b.score ≤ a.score) ∧
    (∀ (p q : Nat × ℚ) (rp rq : FusedRow),
      List.Sublist [p, q] response → p.2 = q.2 →
      candidates.find? (fun r => r.key == p.1) = some rp →
      candidates.find? (fun r => r.key == q.1) = some rq →
      List.Sublist [{ rp with score := p.2 }, { rq with score := q.2 }]
        (applyRerank candidates response)) ∧
    (∀ (cfg : SearchConfig) (vrows frows : RankedList),
      validateFusion cfg.fusionMethod = none → 0 < cfg.limit →
      ∃ out, (runHybrid cfg (Except.ok vrows) (Except.ok frows)
        (some (fun _ => Except.ok response))).1 = Except.ok out) ∧
    ((applyRerank (fuseRRF 60 exampleVector exampleFulltext) exampleRerankResponse).map
      (fun r => (r.key, r.score)) = [(1, 1/2), (3, 1/2)]) ∧
    ((applyRerank (fuseRRF 60 exampleVector exampleFulltext) [(3, 1/2), (1, 1/2)]).map
      (fun r => (r.key, r.score)) = [(3, 1/2), (1, 1/2)]) := by
  refine ⟨?_, List.sorted_insertionSort scoreGE _, ?_, ?_, ?_, ?_⟩
  · intro k0
    constructor
    · intro hk0
      simp only [applyRerank] at hk0
      rw [((List.perm_insertionSort scoreGE _).map FusedRow.key).mem_iff] at hk0
      rcases List.mem_map.mp hk0 with ⟨row, hrowmem, hrowkey⟩
      rcases List.mem_filterMap.mp hrowmem with ⟨p, hp, hg⟩
      rcases Option.map_eq_some'.mp hg with ⟨r, hfind, hrw⟩
      have hr := fusedFind_some hfind
      have hrowr : row.key = r.key := by rw [← hrw]
      constructor
      · exact List.mem_map.mpr ⟨p, hp, by rw [← hr.2, ← hrowr, hrowkey]⟩
      · exact List.mem_map.mpr ⟨r, hr.1, by rw [← hrowr, hrowkey]⟩
    · rintro ⟨hresp, hcand⟩
      rcases List.mem_map.mp hresp with ⟨p, hp, hpk⟩
      cases hfind : candidates.find? (fun r => r.key == p.1) with
      | none =>
        exact absurd (hpk ▸ hcand) (fusedFind_eq_none.mp hfind)
      | some r =>
        have hr := fusedFind_some hfind
        simp only [applyRerank]
        rw [((List.perm_insertionSort scoreGE _).map FusedRow.key).mem_iff]
        refine List.mem_map.mpr ⟨{ r with score := p.2 }, ?_, ?_⟩
        · exact List.mem_filterMap.mpr ⟨p, hp, by rw [hfind]; rfl⟩
        · show r.key = k0
          rw [hr.2, hpk]
  · intro p q rp rq hsub htie hfp hfq
    have hmap : List.Sublist [{ rp with score := p.2 }, { rq with score := q.2 }]
        (response.filterMap (fun p0 =>
          (candidates.find? (fun r => r.key == p0.1)).map
            (fun r => { r with score := p0.2 }))) := by
      have h := hsub.filterMap (fun p0 =>
        (candidates.find? (fun r => r.key == p0.1)).map
          (fun r => { r with score := p0.2 }))
      simpa [List.filterMap_cons, hfp, hfq] using h
    have hab : scoreGE { rp with score := p.2 } { rq with score := q.2 } := by
      show q.2 ≤ p.2
      exact le_of_eq htie.symm
    simp only [applyRerank]
    exact List.pair_sublist_insertionSort hab hmap
  · intro cfg vrows frows hval hlim
    refine ⟨(applyRerank (fuse cfg.fusionMethod
      (filterByDistance cfg.distanceThreshold vrows)
      (filterByMatchScore cfg.matchScoreThreshold frows)) response).take cfg.limit.toNat, ?_⟩
    have happ : applyLimit cfg.limit (applyRerank (fuse cfg.fusionMethod
        (filterByDistance cfg.distanceThreshold vrows)
        (filterByMatchScore cfg.matchScoreThreshold frows)) response) =
        Except.ok ((applyRerank (fuse cfg.fusionMethod
          (filterByDistance cfg.distanceThreshold vrows)
          (filterByMatchScore cfg.matchScoreThreshold frows)) response).take
            cfg.limit.toNat) := by
      rw [applyLimit, if_neg (by omega)]
    simp [runHybrid, hval, happ]
  · norm_num [applyRerank, fuseRRF, fuseWith, distinctKeys, keysOf, exampleVector,
      exampleFulltext, exampleRerankResponse, List.dedup, List.insertionSort,
      List.orderedInsert, scoreGE, mkFusedRow, rrfScore, rrfTerm, rankOf, findByKey,
      rowPayload, List.findIdx?, List.find?, List.pwFilter, List.filterMap]
  · norm_num [applyRerank, fuseRRF, fuseWith, distinctKeys, keysOf, exampleVector,
      exampleFulltext, List.dedup, List.insertionSort,
      List.orderedInsert, scoreGE, mkFusedRow, rrfScore, rrfTerm, rankOf, findByKey,
      rowPayload, List.findIdx?, List.find?, List.pwFilter, List.filterMap]

/-- Witness for C4: the pipeline conjunct of the theorem applied at the
default hybrid configuration and the §8 channels, with every hypothesis
discharged concretely. -/
theorem rerank_subset_dropped_witness :
    ∃ out, (runHybrid hybridConfig (Except.ok exampleVector) (Except.ok exampleFulltext)
      (some (fun _ => Except.ok exampleRerankResponse))).1 = Except.ok out :=
  (rerank_subset_dropped (fuseRRF 60 exampleVector exampleFulltext)
    exampleRerankResponse).2.2.2.1 hybridConfig exampleVector exampleFulltext
    (by norm_num [hybridConfig, validateFusion]) (by norm_num [hybridConfig])

/-- C8: when `distance_threshold` or `match_score_threshold` is configured it
acts as a channel-local pre-fusion filter: the pipeline output is exactly the
limit of the fusion of the filtered channel lists (the threshold is never
applied to the fused output), the keys visible to fusion are exactly the
keys surviving their own channel's threshold, and a row survives its
channel's filter iff its raw channel score passes that threshold. -/
theorem thresholds_prefusion (cfg : SearchConfig) (vrows frows : RankedList)
    (hval : validateFusion cfg.fusionMethod = none) :
    ((runHybrid cfg (Except.ok vrows) (Except.ok frows) none).1 =
      applyLimit cfg.limit (fuse cfg.fusionMethod
        (filterByDistance cfg.distanceThreshold vrows)
        (filterByMatchScore cfg.matchScoreThreshold frows))) ∧
    (∀ k0, k0 ∈ (fuse cfg.fusionMethod
        (filterByDistance cfg.distanceThreshold vrows)
        (filterByMatchScore cfg.matchScoreThreshold frows)).map FusedRow.key ↔
      (k0 ∈ keysOf (filterByDistance cfg.distanceThreshold vrows) ∨
       k0 ∈ keysOf (filterByMatchScore cfg.matchScoreThreshold frows))) ∧
    (∀ (d : ℚ) (rows : RankedList) (r : ScoredRow), r ∈ rows →
      (r ∈ filterByDistance (some d) rows ↔ r.score ≤ d)) ∧
    (∀ (m : ℚ) (rows : RankedList) (r : ScoredRow), r ∈ rows →
      (r ∈ filterByMatchScore (some m) rows ↔ m ≤ r.score)) := by
  refine ⟨by simp [runHybrid, hval], fun k0 => mem_keys_fuse, ?_, ?_⟩
  · intro d rows r hr
    simp [filterByDistance, List.mem_filter, hr]
  · intro m rows r hr
    simp [filterByMatchScore, List.mem_filter, hr]

/-- Witness for C8: the threshold configuration against the §8 channels. -/
theorem thresholds_prefusion_witness :
    ((runHybrid thresholdConfig (Except.ok exampleVector) (Except.ok exampleFulltext)
        none).1 =
      applyLimit thresholdConfig.limit (fuse thresholdConfig.fusionMethod
        (filterByDistance thresholdConfig.distanceThreshold exampleVector)
        (filterByMatchScore thresholdConfig.matchScoreThreshold exampleFulltext))) ∧
    (∀ k0, k0 ∈ (fuse thresholdConfig.fusionMethod
        (filterByDistance thresholdConfig.distanceThreshold exampleVector)
        (filterByMatchScore thresholdConfig.matchScoreThreshold exampleFulltext)).map
          FusedRow.key ↔
      (k0 ∈ keysOf (filterByDistance thresholdConfig.distanceThreshold exampleVector) ∨
       k0 ∈ keysOf (filterByMatchScore thresholdConfig.matchScoreThreshold
         exampleFulltext))) ∧
    (∀ (d : ℚ) (rows : RankedList) (r : ScoredRow), r ∈ rows →
      (r ∈ filterByDistance (some d) rows ↔ r.score ≤ d)) ∧
    (∀ (m : ℚ) (rows : RankedList) (r : ScoredRow), r ∈ rows →
      (r ∈ filterByMatchScore (some m) rows ↔ m ≤ r.score)) :=
  thresholds_prefusion thresholdConfig exampleVector exampleFulltext
    (by norm_num [thresholdConfig, validateFusion])

/-- C10: a search without an explicit search type uses the default
configuration, whose `search_type` is `vector`: the dispatch result is
independent of the full-text channel and of any reranker, the only I/O event
is the vector-channel query, and on a successful vector query the output is
the vector rows ordered ascending by `_distance` (no fusion — the output is
a `vectorRows` value, not a fused list). -/
theorem default_search_is_vector (vq fq fq2 : Except SearchError RankedList)
    (rk rk2 : Option RerankerCall) :
    defaultSearchConfig.searchType = SearchType.vector ∧
    dispatchSearch defaultSearchConfig vq fq rk =
      dispatchSearch defaultSearchConfig vq fq2 rk2 ∧
    (dispatchSearch defaultSearchConfig vq fq rk).2 = [Event.vectorQuery] ∧
    (∀ rows, vq = Except.ok rows →
      dispatchSearch defaultSearchConfig vq fq rk =
        (Except.ok (SearchOutput.vectorRows
          ((rows.insertionSort distanceAsc).take (Int.toNat 10))),
         [Event.vectorQuery]) ∧
      ((rows.insertionSort distanceAsc).take (Int.toNat 10)).Pairwise distanceAsc) := by
  refine ⟨rfl, rfl, ?_, ?_⟩
  · cases vq <;>
      simp [dispatchSearch, defaultSearchConfig, runVectorSearch, filterByDistance,
        applyLimit]
  · intro rows hrows
    subst hrows
    constructor
    · norm_num [dispatchSearch, defaultSearchConfig, runVectorSearch, filterByDistance,
        applyLimit]
    · exact List.Pairwise.sublist (List.take_sublist _ _)
        (List.sorted_insertionSort distanceAsc rows)

/-- Witness for C10: the default configuration dispatched on the §8 vector
channel, with the successful-query hypothesis discharged by `rfl`. -/
theorem default_search_is_vector_witness :
    dispatchSearch defaultSearchConfig (Except.ok exampleVector)
        (Except.error SearchError.channelQueryError) none =
      (Except.ok (SearchOutput.vectorRows
        ((exampleVector.insertionSort distanceAsc).take (Int.toNat 10))),
       [Event.vectorQuery]) ∧
    ((exampleVector.insertionSort distanceAsc).take (Int.toNat 10)).Pairwise distanceAsc :=
  (default_search_is_vector (Except.ok exampleVector)
    (Except.error SearchError.channelQueryError) (Except.ok exampleFulltext)
    none (some (fun _ => Except.error ()))).2.2.2 exampleVector rfl

end PyTiDB
